import Mathlib

/-!
Verification of the metadata-for-user-facility-transformations ETL pipeline
(`etl.py`): `MetadataRetriever.retrieve_metadata_records` and
`SpreadsheetCreator`.  Tables are modelled as a list of column names plus a
list of association-list rows; cells are null (NaN), a string, or a list of
strings (the mapper file may hold list values).  The pandas operations used
by the source (DataFrame construction, left merge, column assignment,
`str.split(expand=True)`, `str.replace`, concat) are embedded explicitly.
-/

set_option maxRecDepth 4000

deriving instance DecidableEq for Except

namespace Etl

/-- A table cell: NaN, a string, or a list of strings (mapper values may be
lists per the source's `Union[str, List[str]]` typing). -/
inductive Cell where
  | null : Cell
  | str (s : String) : Cell
  | list (ls : List String) : Cell
  deriving DecidableEq, Repr

/-- A row, keyed by column name. -/
abbrev Row := List (String × Cell)

/-- One raw record of a `sampleData` group: a flat string-to-string mapping. -/
abbrev Rec := List (String × String)

/-- A DataFrame: ordered column names and rows. -/
structure DF where
  cols : List String
  rows : List Row
  deriving DecidableEq, Repr

/-- Dictionary lookup on an association list. -/
def lookupStr {α : Type} : List (String × α) → String → Option α
  | [], _ => none
  | p :: rest, c => if p.1 = c then some p.2 else lookupStr rest c

/-- Reading a cell; a missing key reads as NaN. -/
def getCell (r : Row) (c : String) : Cell :=
  match lookupStr r c with
  | some v => v
  | none => .null

/-- Writing a cell: overwrite an existing key, otherwise append the pair. -/
def setCell (r : Row) (c : String) (v : Cell) : Row :=
  if (lookupStr r c).isSome then r.map (fun p => if p.1 = c then (c, v) else p)
  else r ++ [(c, v)]

/-- `df.empty`: true when either axis has length zero. -/
def DF.isEmptyDF (df : DF) : Bool := df.rows.isEmpty || df.cols.isEmpty

/-- `df[c]` as a list of cells, row order. -/
def colCells (df : DF) (c : String) : List Cell :=
  df.rows.map (fun r => getCell r c)

/-- `df[c] = vs`: column assignment; a new column is appended at the end. -/
def setColVals (df : DF) (c : String) (vs : List Cell) : DF :=
  ⟨if c ∈ df.cols then df.cols else df.cols ++ [c],
    (df.rows.zip vs).map (fun p => setCell p.1 c p.2)⟩

/-- `pd.DataFrame(records)`: columns are field names in first-appearance
order; missing fields become NaN. -/
def dfOfRecords (recs : List Rec) : DF :=
  let cols := recs.foldl
    (fun acc r => r.foldl (fun a p => if p.1 ∈ a then a else a ++ [p.1]) acc) []
  ⟨cols, recs.map (fun r => cols.map
    (fun c => (c, match lookupStr r c with | some v => Cell.str v | none => Cell.null)))⟩

/-! ### Python string primitives (fuel-based so they reduce in the kernel) -/

/-- Helper for `pySplit`: scan the character list, cutting at each
occurrence of the separator (Python `str.split(sep)` semantics). -/
def splitAux (sep : List Char) : Nat → List Char → List Char → List (List Char)
  | _, [], acc => [acc.reverse]
  | 0, l, acc => [acc.reverse ++ l]
  | fuel+1, c :: rest, acc =>
    if sep.isPrefixOf (c :: rest) then
      acc.reverse :: splitAux sep fuel ((c :: rest).drop sep.length) []
    else splitAux sep fuel rest (c :: acc)

/-- Python `s.split(sep)` for a nonempty separator. -/
def pySplit (s sep : String) : List String :=
  if sep.toList.isEmpty then [s]
  else (splitAux sep.toList (s.toList.length + 1) s.toList []).map
    (fun cs => String.mk cs)

/-- Helper for `pyReplace`. -/
def replaceAux (old new : List Char) : Nat → List Char → List Char
  | _, [] => []
  | 0, l => l
  | fuel+1, c :: rest =>
    if !old.isEmpty && old.isPrefixOf (c :: rest) then
      new ++ replaceAux old new fuel ((c :: rest).drop old.length)
    else c :: replaceAux old new fuel rest

/-- Python `s.replace(old, new)`: replace every occurrence, left to right. -/
def pyReplace (s old new : String) : String :=
  String.mk (replaceAux old.toList new.toList (s.toList.length + 1) s.toList)

/-- Helper for `pyInt?`: decimal digits with accumulator. -/
def digitsAux : List Char → Nat → Option Nat
  | [], acc => some acc
  | c :: rest, acc =>
    if c.isDigit then digitsAux rest (acc * 10 + (c.toNat - 48)) else none

/-- Nonempty all-digit character list to a number. -/
def digitsToNat? (l : List Char) : Option Nat :=
  if l.isEmpty then none else digitsAux l 0

/-- Python `int(s)` on a decimal literal with optional sign; `none` models
the `ValueError` on anything else. -/
def pyInt? (s : String) : Option Int :=
  match s.toList with
  | '-' :: rest => (digitsToNat? rest).map (fun n => -(n : Int))
  | '+' :: rest => (digitsToNat? rest).map (fun n => (n : Int))
  | l => (digitsToNat? l).map (fun n => (n : Int))

/-- Python list indexing with negative wrap-around; `none` models
`IndexError`. -/
def pyIndex (l : List String) (i : Int) : Option String :=
  if 0 ≤ i then l.get? i.toNat
  else if 0 ≤ (l.length : Int) + i then l.get? ((l.length : Int) + i).toNat
  else none

/-- `calendar.month_name`: 13 entries, index 0 is the empty string. -/
def monthNames : List String :=
  ["", "January", "February", "March", "April", "May", "June", "July",
   "August", "September", "October", "November", "December"]

/-! ### `.str` accessor semantics -/

/-- Cell `j` of `.str.split(sep, expand=True)`: non-strings (NaN and list
cells) produce NaN, as pandas `.str` methods do; an out-of-range part is the
NaN fill of `expand`. -/
def partCell (sep : String) (j : Nat) : Cell → Cell
  | .str s =>
    match (pySplit s sep).get? j with
    | some t => .str t
    | none => .null
  | _ => .null

/-- How many expanded columns one cell asks for (non-strings count 1). -/
def partWidth (sep : String) : Cell → Nat
  | .str s => (pySplit s sep).length
  | _ => 1

/-- Column count of `.str.split(sep, expand=True)` over a column. -/
def expandWidth (sep : String) (cells : List Cell) : Nat :=
  cells.foldl (fun m c => max m (partWidth sep c)) 0

/-- `str.replace("-", " - ")` on one cell (NaN passes through as NaN). -/
def normCell : Cell → Cell
  | .str s => .str (pyReplace s "-" " - ")
  | _ => .null

/-! ### Errors raised by the pipeline -/

/-- The error taxonomy of the pipeline, named after the spec's classes:
`missingFacilityDataError` is the `ValueError` raised when the selected
facility group is absent or empty; `missingColumnError` is the `KeyError`
on the facility-demanded dnase column; `inputFormatError` is the
`ValueError` from assigning a split of the wrong arity;
`mergeKeyError`/`pdValueError`/`pdIndexError`/`monthNameError` are the
remaining pandas/Python exceptions. -/
inductive EtlError where
  | missingFacilityDataError : EtlError
  | mergeKeyError (c : String) : EtlError
  | inputFormatError (c : String) : EtlError
  | monthNameError : EtlError
  | missingColumnError (c : String) : EtlError
  | pdValueError : EtlError
  | pdIndexError : EtlError
  deriving DecidableEq, Repr

/-- Structural `mapM` over `Except` (evaluation order and first-error-wins
match `Series.apply`). -/
def exMapM (f : Cell → Except EtlError Cell) :
    List Cell → Except EtlError (List Cell)
  | [] => .ok []
  | c :: cs => do
    let v ← f c
    let vs ← exMapM f cs
    .ok (v :: vs)

/-! ### MetadataRetriever -/

/-- `USER_FACILITY_DICT`. -/
def USER_FACILITY_DICT : List (String × String) :=
  [("emsl", "emsl_data"), ("jgi_mg", "jgi_mg_data"), ("jgi_mt", "jgi_mt_data")]

/-- `user_facility_keys` from the merge loop. -/
def userFacilityKeys : List String := ["emsl_data", "jgi_mg_data", "jgi_mt_data"]

/-- The whole remote response that the retriever consumes:
`metadata_submission.sampleData` as an ordered mapping from group key to its
record list. -/
abbrev SampleData := List (String × List Rec)

/-- `sample_data_keys`: every `sampleData` key that is not a facility key,
in encounter order. -/
def annotationKeys (sd : SampleData) : List String :=
  (sd.map Prod.fst).filter (fun k => decide (k ∉ userFacilityKeys))

/-- Collision renaming of a left column: `_x` suffix when the right side
shares a non-key column of that name. -/
def lrenName (r : DF) (key c : String) : String :=
  if c ≠ key ∧ c ∈ r.cols then c ++ "_x" else c

/-- The right side's non-key output columns, paired with their original
names (`_y` suffix on collision). -/
def rpairsOf (l r : DF) (key : String) : List (String × String) :=
  (r.cols.filter (fun c => decide (c ≠ key))).map
    (fun c => (if c ∈ l.cols then c ++ "_y" else c, c))

/-- The left part of a merged row: every left column under its renaming. -/
def mergeLPart (l r : DF) (key : String) (lr : Row) : Row :=
  l.cols.map (fun c => (lrenName r key c, getCell lr c))

/-- Row block of the left merge: left rows in order, multiplied by their
matches on the key (NaN keys match nothing), NaN fill when unmatched. -/
def mergeRows (l r : DF) (key : String) : List Row :=
  l.rows.flatMap (fun lr =>
    match getCell lr key with
    | .str v =>
      if ((r.rows.filter (fun rr => decide (getCell rr key = .str v))).isEmpty : Bool) then
        [mergeLPart l r key lr ++ (rpairsOf l r key).map (fun p => (p.1, Cell.null))]
      else (r.rows.filter (fun rr => decide (getCell rr key = .str v))).map
        (fun rr => mergeLPart l r key lr ++
          (rpairsOf l r key).map (fun p => (p.1, getCell rr p.2)))
    | _ => [mergeLPart l r key lr ++ (rpairsOf l r key).map (fun p => (p.1, Cell.null))])

/-- `pd.merge(l, r, on=key, how="left")`: left rows kept (with NaN fill
when unmatched), matching right rows multiply, and non-key columns present
on both sides are renamed with the `_x`/`_y` suffixes.  A missing key
column on either side is the pandas `KeyError`. -/
def mergeLeft (l r : DF) (key : String) : Except EtlError DF :=
  if key ∈ l.cols ∧ key ∈ r.cols then
    .ok ⟨l.cols.map (lrenName r key) ++ (rpairsOf l r key).map Prod.fst,
      mergeRows l r key⟩
  else .error (.mergeKeyError key)

/-- `df['sample_isolated_from'] = key`. -/
def stampCol (df : DF) (k : String) : DF :=
  setColVals df "sample_isolated_from" (df.rows.map (fun _ => Cell.str k))

/-- One iteration of the annotation-group loop: left-merge the group's
records on `samp_name` when the group frame is nonempty, then stamp
`sample_isolated_from` with the group key unconditionally. -/
def annotStep (df : DF) (k : String) (recs : List Rec) : Except EtlError DF :=
  if (dfOfRecords recs).isEmptyDF then .ok (stampCol df k)
  else (mergeLeft df (dfOfRecords recs) "samp_name").map (fun d => stampCol d k)

/-- `df[["latitude", "longitude"]] = df["lat_lon"].str.split(" ", expand=True)`:
the expanded frame must have exactly two columns or pandas raises. -/
def latLonStep (df : DF) : Except EtlError DF :=
  if "lat_lon" ∈ df.cols then
    if expandWidth " " (colCells df "lat_lon") = 2 then
      .ok (setColVals
        (setColVals df "latitude" ((colCells df "lat_lon").map (partCell " " 0)))
        "longitude" ((colCells df "lat_lon").map (partCell " " 1)))
    else .error (.inputFormatError "lat_lon")
  else .ok df

/-- The table after `df["depth"] = df["depth"].str.replace("-", " - ")`. -/
def depthNormFrame (df : DF) : DF :=
  setColVals df "depth" ((colCells df "depth").map normCell)

/-- The normalized depth column, i.e. the split's input (`dfNew` source). -/
def depthCells (df : DF) : List Cell :=
  colCells (depthNormFrame df) "depth"

/-- The depth block: normalize hyphens, then dispatch on the row count of
the split frame — a one-row table broadcasts column 0 of the split to both
bounds, any other table assigns the two split columns positionally. -/
def depthStep (df : DF) : Except EtlError DF :=
  if "depth" ∈ df.cols then
    if (depthNormFrame df).rows.length = 1 then
      .ok (setColVals
        (setColVals (depthNormFrame df) "minimum_depth"
          ((depthCells df).map (partCell " - " 0)))
        "maximum_depth" ((depthCells df).map (partCell " - " 0)))
    else if expandWidth " - " (depthCells df) = 2 then
      .ok (setColVals
        (setColVals (depthNormFrame df) "minimum_depth"
          ((depthCells df).map (partCell " - " 0)))
        "maximum_depth" ((depthCells df).map (partCell " - " 1)))
    else .error (.inputFormatError "depth")
  else .ok df

/-- `df["country_name"] = df["geo_loc_name"].str.split(":").str[0]`. -/
def geoStep (df : DF) : DF :=
  if "geo_loc_name" ∈ df.cols then
    setColVals df "country_name" ((colCells df "geo_loc_name").map (partCell ":" 0))
  else df

/-- `calendar.month_name[int(x)]` on one month cell; any non-numeric or
out-of-range month raises. -/
def monthNameOf : Cell → Except EtlError Cell
  | .str s =>
    match pyInt? s with
    | some i =>
      match pyIndex monthNames i with
      | some nm => .ok (.str nm)
      | none => .error .monthNameError
    | none => .error .monthNameError
  | _ => .error .monthNameError

/-- The table after `df["collection_year"] = ...`. -/
def ymd1 (df : DF) : DF :=
  setColVals df "collection_year"
    ((colCells df "collection_date").map (partCell "-" 0))

/-- The table after `df["collection_month"] = ...` follows `ymd1`. -/
def ymd2 (df : DF) : DF :=
  setColVals (ymd1 df) "collection_month"
    ((colCells (ymd1 df) "collection_date").map (partCell "-" 1))

/-- The table after `df["collection_day"] = ...` follows `ymd2`. -/
def ymd3 (df : DF) : DF :=
  setColVals (ymd2 df) "collection_day"
    ((colCells (ymd2 df) "collection_date").map (partCell "-" 2))

/-- The collection_date block: year/month/day via `.str.split("-").str[i]`,
then the month name via `calendar.month_name[int(month)]`. -/
def collectionStep (df : DF) : Except EtlError DF :=
  if "collection_date" ∈ df.cols then
    match exMapM monthNameOf (colCells (ymd3 df) "collection_month") with
    | .ok vs => .ok (setColVals (ymd3 df) "collection_month_name" vs)
    | .error e => .error e
  else .ok df

/-- The yes/no rewrite applied cell-by-cell by the two `df.loc` masks:
first the `== "yes"` mask writes `Y`, then the `== "no"` mask writes `N`,
anything else is untouched. -/
def ynCell (c : Cell) : Cell :=
  if c = .str "yes" then .str "Y" else if c = .str "no" then .str "N" else c

/-- The facility-specific dnase normalization: `jgi_mg` rewrites
`dna_dnase`, `jgi_mt` rewrites `dnase_rna`; reading a missing column is the
pandas `KeyError`. -/
def dnaseStep (facility : String) (df : DF) : Except EtlError DF :=
  if facility = "jgi_mg" then
    if "dna_dnase" ∈ df.cols then
      .ok (setColVals df "dna_dnase" ((colCells df "dna_dnase").map ynCell))
    else .error (.missingColumnError "dna_dnase")
  else if facility = "jgi_mt" then
    if "dnase_rna" ∈ df.cols then
      .ok (setColVals df "dnase_rna" ((colCells df "dnase_rna").map ynCell))
    else .error (.missingColumnError "dnase_rna")
  else .ok df

/-- The base frame: `pd.DataFrame` of the resolved facility group's record
list (the empty frame when the selector or the group is unknown). -/
def facilityFrame (sampleData : SampleData) (user_facility : String) : DF :=
  match lookupStr USER_FACILITY_DICT user_facility with
  | some fk => dfOfRecords ((lookupStr sampleData fk).getD [])
  | none => ⟨[], []⟩

/-- `MetadataRetriever.retrieve_metadata_records` after the two network
calls: resolve the facility group as the base frame (erroring when it is
absent or empty), fold the annotation-group loop, then run the derivation
blocks.  The `unique_field` parameter is accepted and, as in the source,
never read. -/
def retrieve_metadata_records (sampleData : SampleData)
    (user_facility unique_field : String) : Except EtlError DF :=
  if (facilityFrame sampleData user_facility).isEmptyDF then
    .error .missingFacilityDataError
  else do
    let merged ← (annotationKeys sampleData).foldlM
      (fun df k => annotStep df k ((lookupStr sampleData k).getD []))
      (facilityFrame sampleData user_facility)
    let d1 ← latLonStep merged
    let d2 ← depthStep d1
    let d4 ← collectionStep (geoStep d2)
    dnaseStep user_facility d4

/-! ### SpreadsheetCreator -/

/-- The JSON mapper: an ordered mapping from output key to an ordered
mapping of fields (header labels plus the optional `sub_port_mapping`). -/
abbrev Mapper := List (String × List (String × Cell))

/-- `pd.DataFrame(d)` for a dict of lists: every list must have the same
length (else the pandas `ValueError`); columns are the keys in order. -/
def dfOfDict (d : List (String × List Cell)) : Except EtlError DF :=
  match d with
  | [] => .ok ⟨[], []⟩
  | (_, v) :: rest =>
    if rest.all (fun p => p.2.length == v.length) then
      .ok ⟨d.map Prod.fst,
        (List.range v.length).map (fun i => d.map
          (fun p => (p.1, match p.2.get? i with | some x => x | none => Cell.null)))⟩
    else .error .pdValueError

/-- All cells as plain strings, or `none` (setting DataFrame column labels
to non-string values is not modelled and surfaces as the pandas error). -/
def cellStrings : List Cell → Option (List String)
  | [] => some []
  | .str s :: rest => (cellStrings rest).map (fun t => s :: t)
  | _ :: _ => none

/-- `SpreadsheetCreator.combine_headers_df`: build the header-label frame
from the non-`sub_port_mapping` fields; when the flag is set, promote the
last label row to the column names, append the mapper-key row, and rotate
the rows by one position.  When the flag is clear the raw label frame is
returned unchanged. -/
def combine_headers_df (m : Mapper) (header : Bool) : Except EtlError DF := do
  let d := m.map (fun kv =>
    (kv.1, (kv.2.filter (fun p => p.1 != "sub_port_mapping")).map Prod.snd))
  let hdf ← dfOfDict d
  if header then
    match hdf.rows.getLast? with
    | none => .error .pdIndexError
    | some last =>
      match cellStrings (hdf.cols.map (fun c => getCell last c)) with
      | none => .error .pdValueError
      | some cols2 =>
        let rows1 := hdf.rows.dropLast ++ [hdf.cols.map (fun c => (c, Cell.str c))]
        let rows2 := rows1.map (fun r => cols2.zip (hdf.cols.map (fun c => getCell r c)))
        match rows2.getLast? with
        | none => .error .pdIndexError
        | some lastR => .ok ⟨cols2, lastR :: rows2.dropLast⟩
  else .ok hdf

/-- Assigning a column to the row frame; assigning to the initial fully
empty frame adopts the series' rows. -/
def assignCol (df : DF) (c : String) (vs : List Cell) : DF :=
  if df.cols.isEmpty && df.rows.isEmpty then ⟨[c], vs.map (fun v => [(c, v)])⟩
  else setColVals df c vs

/-- `SpreadsheetCreator.combine_sample_rows_df`: for each mapper key whose
`sub_port_mapping` names a present metadata column, copy that column under
the key's `header` field value when that field exists, else under the key
itself.  A list-valued `header` field is the pandas multi-column-assignment
error. -/
def combine_sample_rows_df (m : Mapper) (md : DF) : Except EtlError DF :=
  m.foldlM (fun acc kv =>
    match lookupStr kv.2 "sub_port_mapping" with
    | some (Cell.str sp) =>
      if sp ∈ md.cols then
        match lookupStr kv.2 "header" with
        | some (Cell.str h) => .ok (assignCol acc h (colCells md sp))
        | some _ => .error .pdValueError
        | none => .ok (assignCol acc kv.1 (colCells md sp))
      else .ok acc
    | _ => .ok acc) ⟨[], []⟩

/-- `pd.concat([headers_df, rows_df])`: stack rows; the column axis is the
union, first frame's order first, NaN for the non-overlapping cells. -/
def combine_headers_and_rows (h r : DF) : DF :=
  ⟨h.cols ++ r.cols.filter (fun c => decide (c ∉ h.cols)), h.rows ++ r.rows⟩

/-- `SpreadsheetCreator.create_spreadsheet`. -/
def create_spreadsheet (m : Mapper) (md : DF) (header : Bool) :
    Except EtlError DF := do
  let hdf ← combine_headers_df m header
  let rdf ← combine_sample_rows_df m md
  .ok (combine_headers_and_rows hdf rdf)

/-- The physical rows written by `to_excel(index=False)`: the column-name
row on top, then the data rows. -/
def writtenRows (df : DF) : List (List Cell) :=
  df.cols.map Cell.str :: df.rows.map (fun r => df.cols.map (fun c => getCell r c))

/-! ### Row and column lemmas -/

theorem lookup_map_set (r : Row) (c : String) (v : Cell) :
    lookupStr (r.map (fun p => if p.1 = c then (c, v) else p)) c =
      if (lookupStr r c).isSome then some v else none := by
  induction r with
  | nil => simp [lookupStr]
  | cons p rest ih =>
    simp only [List.map_cons, lookupStr]
    by_cases hp : p.1 = c
    · rw [if_pos hp]
      simp [hp]
    · rw [if_neg hp, if_neg hp]
      simp only [lookupStr] at ih
      simp [ih, hp]

theorem lookup_map_set_ne (r : Row) (c c' : String) (v : Cell) (h : c' ≠ c) :
    lookupStr (r.map (fun p => if p.1 = c then (c, v) else p)) c' =
      lookupStr r c' := by
  induction r with
  | nil => simp
  | cons p rest ih =>
    simp only [List.map_cons, lookupStr]
    by_cases hp : p.1 = c
    · rw [if_pos hp, hp]
      simp [Ne.symm h, ih]
    · rw [if_neg hp]
      simp [ih]

theorem lookup_append_right (r : Row) (c : String) (v : Cell)
    (h : lookupStr r c = none) : lookupStr (r ++ [(c, v)]) c = some v := by
  induction r with
  | nil => simp [lookupStr]
  | cons p rest ih =>
    by_cases hp : p.1 = c
    · simp [lookupStr, hp] at h
    · simp only [lookupStr, if_neg hp] at h
      simp only [List.cons_append, lookupStr, if_neg hp]
      exact ih h

theorem lookup_append_sing_ne (r : Row) (c c' : String) (v : Cell) (h : c' ≠ c) :
    lookupStr (r ++ [(c, v)]) c' = lookupStr r c' := by
  induction r with
  | nil => simp [lookupStr, Ne.symm h]
  | cons p rest ih =>
    simp only [List.cons_append, lookupStr]
    by_cases hp : p.1 = c'
    · simp [hp]
    · simp [hp, ih]

theorem getCell_setCell_self (r : Row) (c : String) (v : Cell) :
    getCell (setCell r c v) c = v := by
  unfold getCell setCell
  by_cases h : (lookupStr r c).isSome
  · rw [if_pos h, lookup_map_set, if_pos h]
  · rw [if_neg h]
    have hnone : lookupStr r c = none := by
      cases hlv : lookupStr r c with
      | none => rfl
      | some w => rw [hlv] at h; simp at h
    rw [lookup_append_right r c v hnone]

theorem getCell_setCell_ne (r : Row) (c c' : String) (v : Cell) (h : c' ≠ c) :
    getCell (setCell r c v) c' = getCell r c' := by
  unfold getCell setCell
  by_cases hs : (lookupStr r c).isSome
  · rw [if_pos hs, lookup_map_set_ne r c c' v h]
  · rw [if_neg hs, lookup_append_sing_ne r c c' v h]

theorem zip_map_map (l : List α) (f : α → β) (g : α → γ) (h : β → γ → δ) :
    ((l.map f).zip (l.map g)).map (fun p => h p.1 p.2) =
      l.map (fun a => h (f a) (g a)) := by
  induction l with
  | nil => rfl
  | cons a t ih => simp [ih]

theorem zip_get?_of (l₁ : List α) (l₂ : List β) :
    ∀ (i : Nat) (a : α) (b : β), l₁.get? i = some a → l₂.get? i = some b →
      (l₁.zip l₂).get? i = some (a, b) := by
  induction l₁ generalizing l₂ with
  | nil => intro i a b h; simp at h
  | cons x t ih =>
    intro i a b h₁ h₂
    cases l₂ with
    | nil => simp at h₂
    | cons y s =>
      cases i with
      | zero => simp_all
      | succ j => simpa using ih s j a b (by simpa using h₁) (by simpa using h₂)

theorem setColVals_rows_map (df : DF) (c : String) (g : Row → Cell) :
    (setColVals df c (df.rows.map g)).rows =
      df.rows.map (fun r => setCell r c (g r)) := by
  unfold setColVals
  have := zip_map_map df.rows id g (fun r v => setCell r c v)
  simpa using this

theorem setColVals_cols (df : DF) (c : String) (vs : List Cell) :
    (setColVals df c vs).cols =
      if c ∈ df.cols then df.cols else df.cols ++ [c] := rfl

theorem mem_setColVals_cols (df : DF) (c x : String) (vs : List Cell)
    (h : x ∈ df.cols) : x ∈ (setColVals df c vs).cols := by
  rw [setColVals_cols]
  split <;> simp [h]

theorem self_mem_setColVals_cols (df : DF) (c : String) (vs : List Cell) :
    c ∈ (setColVals df c vs).cols := by
  rw [setColVals_cols]
  split
  · assumption
  · simp

theorem setColVals_rows_mem (df : DF) (c : String) (vs : List Cell) :
    ∀ r' ∈ (setColVals df c vs).rows, ∃ r ∈ df.rows, ∃ v, r' = setCell r c v := by
  intro r' hr'
  unfold setColVals at hr'
  simp only [List.mem_map] at hr'
  obtain ⟨p, hp, rfl⟩ := hr'
  exact ⟨p.1, (List.of_mem_zip hp).1, p.2, rfl⟩

theorem colCells_setColVals_self (df : DF) (c : String) (g : Row → Cell) :
    colCells (setColVals df c (df.rows.map g)) c = df.rows.map g := by
  unfold colCells
  rw [setColVals_rows_map, List.map_map]
  exact List.map_congr_left (fun r _ => getCell_setCell_self r c (g r))

theorem colCells_setColVals_ne (df : DF) (c c' : String) (g : Row → Cell)
    (h : c' ≠ c) : colCells (setColVals df c (df.rows.map g)) c' = colCells df c' := by
  unfold colCells
  rw [setColVals_rows_map, List.map_map]
  exact List.map_congr_left (fun r _ => getCell_setCell_ne r c c' (g r) h)

theorem colCells_map (df : DF) (c : String) (f : Cell → Cell) :
    (colCells df c).map f = df.rows.map (fun r => f (getCell r c)) := by
  unfold colCells
  rw [List.map_map]
  rfl

theorem setColVals_rows_map2 (df : DF) (base : List Row) (F : Row → Row)
    (c : String) (g : Row → Cell) (hrows : df.rows = base.map F) :
    (setColVals df c (base.map g)).rows =
      base.map (fun a => setCell (F a) c (g a)) := by
  unfold setColVals
  rw [hrows]
  exact zip_map_map base F g (fun r v => setCell r c v)

/-- Row-wise derivation of column `dst` from column `src` of the input
table, stated through positional row correspondence. -/
def ColDerived (df d : DF) (src dst : String) (f : Cell → Cell) : Prop :=
  ∀ i r, df.rows.get? i = some r → ∃ r', d.rows.get? i = some r' ∧
    getCell r' dst = f (getCell r src)

theorem colDerived_of_map (df d : DF) (src dst : String) (f : Cell → Cell)
    (F : Row → Row) (hrows : d.rows = df.rows.map F)
    (hF : ∀ r, getCell (F r) dst = f (getCell r src)) :
    ColDerived df d src dst f := by
  intro i r hr
  refine ⟨F r, ?_, hF r⟩
  rw [hrows, List.get?_map, hr]
  rfl

/-- Every row of the table carries value `v` in column `c`. -/
def AllCell (df : DF) (c : String) (v : Cell) : Prop :=
  ∀ r ∈ df.rows, getCell r c = v

theorem allCell_setColVals (df : DF) (c c' : String) (vs : List Cell) (v : Cell)
    (hne : c ≠ c') (h : AllCell df c v) : AllCell (setColVals df c' vs) c v := by
  intro r' hr'
  obtain ⟨r, hr, w, rfl⟩ := setColVals_rows_mem df c' vs r' hr'
  rw [getCell_setCell_ne r c' c w hne]
  exact h r hr

theorem except_bind_ok (x : α) (f : α → Except EtlError β) :
    (Except.ok x >>= f) = f x := rfl

theorem except_bind_error (e : EtlError) (f : α → Except EtlError β) :
    ((Except.error e : Except EtlError α) >>= f) = .error e := rfl

/-! ### The annotation-group loop stamps the last key -/

theorem allCell_stampCol (df : DF) (k : String) :
    AllCell (stampCol df k) "sample_isolated_from" (.str k) := by
  intro r' hr'
  unfold stampCol at hr'
  rw [setColVals_rows_map] at hr'
  obtain ⟨r, _, rfl⟩ := List.mem_map.mp hr'
  exact getCell_setCell_self r "sample_isolated_from" (.str k)

theorem annotStep_allCell (df : DF) (k : String) (recs : List Rec) (d : DF)
    (hok : annotStep df k recs = .ok d) :
    AllCell d "sample_isolated_from" (.str k) := by
  unfold annotStep at hok
  split at hok
  · cases hok
    exact allCell_stampCol df k
  · cases hm : mergeLeft df (dfOfRecords recs) "samp_name" with
    | error e => rw [hm] at hok; simp [Except.map] at hok
    | ok m =>
      rw [hm] at hok
      simp only [Except.map] at hok
      cases hok
      exact allCell_stampCol m k

theorem foldl_annot_last (f : String → List Rec) (keys : List String) :
    ∀ (df d : DF) (k : String), keys.getLast? = some k →
      keys.foldlM (fun df k => annotStep df k (f k)) df = .ok d →
      AllCell d "sample_isolated_from" (.str k) := by
  induction keys with
  | nil => intro df d k hk; simp at hk
  | cons k0 t ih =>
    intro df d k hk hfold
    rw [List.foldlM_cons] at hfold
    cases hstep : annotStep df k0 (f k0) with
    | error e => rw [hstep, except_bind_error] at hfold; simp at hfold
    | ok mid =>
      rw [hstep, except_bind_ok] at hfold
      cases t with
      | nil =>
        simp only [List.getLast?_singleton, Option.some.injEq] at hk
        subst hk
        simp only [List.foldlM_nil] at hfold
        cases hfold
        exact annotStep_allCell df k0 (f k0) d hstep
      | cons k1 s =>
        rw [List.getLast?_cons_cons] at hk
        exact ih mid d k hk hfold

/-! ### The derivation steps do not touch `sample_isolated_from` -/

theorem allCell_latLonStep (df d : DF) (c : String) (v : Cell)
    (hok : latLonStep df = .ok d) (h1 : c ≠ "latitude") (h2 : c ≠ "longitude")
    (h : AllCell df c v) : AllCell d c v := by
  unfold latLonStep at hok
  split at hok
  · split at hok
    · cases hok
      exact allCell_setColVals _ _ _ _ _ h2 (allCell_setColVals _ _ _ _ _ h1 h)
    · simp at hok
  · cases hok
    exact h

theorem allCell_depthStep (df d : DF) (c : String) (v : Cell)
    (hok : depthStep df = .ok d) (h0 : c ≠ "depth") (h1 : c ≠ "minimum_depth")
    (h2 : c ≠ "maximum_depth") (h : AllCell df c v) : AllCell d c v := by
  unfold depthStep at hok
  split at hok
  · split at hok
    · cases hok
      exact allCell_setColVals _ _ _ _ _ h2 (allCell_setColVals _ _ _ _ _ h1
        (allCell_setColVals _ _ _ _ _ h0 h))
    · split at hok
      · cases hok
        exact allCell_setColVals _ _ _ _ _ h2 (allCell_setColVals _ _ _ _ _ h1
          (allCell_setColVals _ _ _ _ _ h0 h))
      · simp at hok
  · cases hok
    exact h

theorem allCell_geoStep (df : DF) (c : String) (v : Cell)
    (h1 : c ≠ "country_name") (h : AllCell df c v) : AllCell (geoStep df) c v := by
  unfold geoStep
  split
  · exact allCell_setColVals _ _ _ _ _ h1 h
  · exact h

theorem allCell_collectionStep (df d : DF) (c : String) (v : Cell)
    (hok : collectionStep df = .ok d) (h1 : c ≠ "collection_year")
    (h2 : c ≠ "collection_month") (h3 : c ≠ "collection_day")
    (h4 : c ≠ "collection_month_name") (h : AllCell df c v) : AllCell d c v := by
  unfold collectionStep at hok
  split at hok
  · split at hok
    · cases hok
      exact allCell_setColVals _ _ _ _ _ h4 (allCell_setColVals _ _ _ _ _ h3
        (allCell_setColVals _ _ _ _ _ h2 (allCell_setColVals _ _ _ _ _ h1 h)))
    · simp at hok
  · cases hok
    exact h

theorem allCell_dnaseStep (facility : String) (df d : DF) (c : String) (v : Cell)
    (hok : dnaseStep facility df = .ok d) (h1 : c ≠ "dna_dnase")
    (h2 : c ≠ "dnase_rna") (h : AllCell df c v) : AllCell d c v := by
  unfold dnaseStep at hok
  split at hok
  · split at hok
    · cases hok
      exact allCell_setColVals _ _ _ _ _ h1 h
    · simp at hok
  · split at hok
    · split at hok
      · cases hok
        exact allCell_setColVals _ _ _ _ _ h2 h
      · simp at hok
    · cases hok
      exact h

/-- Inversion of a successful retrieval into its phases. -/
theorem retrieve_ok_parts (sd : SampleData) (f uf : String) (df : DF)
    (hok : retrieve_metadata_records sd f uf = .ok df) :
    ∃ common merged d1 d2 d4 : DF,
      (annotationKeys sd).foldlM
        (fun df k => annotStep df k ((lookupStr sd k).getD [])) common = .ok merged ∧
      latLonStep merged = .ok d1 ∧ depthStep d1 = .ok d2 ∧
      collectionStep (geoStep d2) = .ok d4 ∧ dnaseStep f d4 = .ok df := by
  unfold retrieve_metadata_records at hok
  split at hok
  · simp at hok
  · cases hfold : (annotationKeys sd).foldlM
        (fun df k => annotStep df k ((lookupStr sd k).getD []))
        (facilityFrame sd f) with
    | error e => rw [hfold, except_bind_error] at hok; simp at hok
    | ok merged =>
      rw [hfold, except_bind_ok] at hok
      cases h1 : latLonStep merged with
      | error e => rw [h1, except_bind_error] at hok; simp at hok
      | ok d1 =>
        rw [h1, except_bind_ok] at hok
        cases h2 : depthStep d1 with
        | error e => rw [h2, except_bind_error] at hok; simp at hok
        | ok d2 =>
          rw [h2, except_bind_ok] at hok
          cases h4 : collectionStep (geoStep d2) with
          | error e => rw [h4, except_bind_error] at hok; simp at hok
          | ok d4 =>
            rw [h4, except_bind_ok] at hok
            exact ⟨_, merged, d1, d2, d4, hfold, h1, h2, h4, hok⟩

/-! ### Column lemmas for the merge and the stamp -/

theorem stampCol_cols_of_mem (df : DF) (k : String)
    (h : "sample_isolated_from" ∈ df.cols) : (stampCol df k).cols = df.cols := by
  unfold stampCol
  rw [setColVals_cols, if_pos h]

theorem sifo_mem_stampCol (df : DF) (k : String) :
    "sample_isolated_from" ∈ (stampCol df k).cols :=
  self_mem_setColVals_cols df _ _

theorem mergeLeft_ok_key (l r : DF) (key : String) (d : DF)
    (hok : mergeLeft l r key = .ok d) : key ∈ l.cols ∧ key ∈ r.cols := by
  unfold mergeLeft at hok
  split at hok
  · rename_i h
    exact h
  · simp at hok

theorem mergeLeft_samp_only (l g : DF) (hg : g.cols = ["samp_name"])
    (hk : "samp_name" ∈ l.cols) :
    mergeLeft l g "samp_name" = .ok ⟨l.cols, mergeRows l g "samp_name"⟩ := by
  unfold mergeLeft
  rw [if_pos ⟨hk, by rw [hg]; exact List.mem_singleton_self _⟩]
  have h1 : rpairsOf l g "samp_name" = [] := by
    unfold rpairsOf
    rw [hg]
    rfl
  have h2 : ∀ c ∈ l.cols, lrenName g "samp_name" c = c := by
    intro c _
    unfold lrenName
    rw [if_neg]
    rintro ⟨hne, hmem⟩
    rw [hg] at hmem
    simp at hmem
    exact hne hmem
  have hcols : l.cols.map (lrenName g "samp_name") ++
      (rpairsOf l g "samp_name").map Prod.fst = l.cols := by
    rw [h1]
    simp only [List.map_nil, List.append_nil]
    calc l.cols.map (lrenName g "samp_name") = l.cols.map id :=
          List.map_congr_left (fun c hc => h2 c hc)
      _ = l.cols := List.map_id l.cols
  rw [hcols]

/-! ### Claims -/

/-- C1: for every submission record and facility selector, if the facility
group resolved from the selector is absent from the submission's sampleData
or its record list is empty, `retrieve_metadata_records` fails with the
missing-facility-data error and returns no partial table. -/
theorem missing_facility_data_fails (sd : SampleData) (f uf fk : String)
    (hdict : lookupStr USER_FACILITY_DICT f = some fk)
    (habsent : lookupStr sd fk = none ∨ lookupStr sd fk = some []) :
    retrieve_metadata_records sd f uf = .error .missingFacilityDataError := by
  have hempty : (facilityFrame sd f).isEmptyDF = true := by
    unfold facilityFrame
    rw [hdict]
    show (dfOfRecords ((lookupStr sd fk).getD [])).isEmptyDF = true
    rcases habsent with h | h <;> rw [h] <;> rfl
  unfold retrieve_metadata_records
  rw [if_pos hempty]

/-- Witness for C1: the `emsl` selector resolves to `emsl_data`, which is
absent from a submission holding only a `water` group. -/
theorem missing_facility_data_fails_witness :
    lookupStr USER_FACILITY_DICT "emsl" = some "emsl_data" ∧
    retrieve_metadata_records [("water", [[("samp_name", "s1")]])] "emsl" "u" =
      .error .missingFacilityDataError :=
  ⟨by decide, missing_facility_data_fails [("water", [[("samp_name", "s1")]])]
    "emsl" "u" "emsl_data" (by decide) (Or.inl (by decide))⟩

/-- C2 (code behavior at the failing input): with the header flag false, the
raw header-label row is still stacked above the data rows, so the output is
not data rows only — the flag only controls the promotion/rotation
transformation, contrary to the claim and to the source's own docstring. -/
theorem headerless_output_keeps_label_row :
    create_spreadsheet
      [("A", [("lab", .str "Lab"), ("sub_port_mapping", .str "samp_name")])]
      ⟨["samp_name"], [[("samp_name", .str "s1")]]⟩ false =
      .ok ⟨["A"], [[("A", .str "Lab")], [("A", .str "s1")]]⟩ := by decide

/-- C3 (counterexample): on the claim's exact mapper — key `A` with two
header labels and key `B` with one — `pd.DataFrame` of the ragged label
dict raises, so `create_spreadsheet` produces an error and no output with
the claimed promoted row exists. -/
theorem ragged_mapper_create_spreadsheet_errors :
    create_spreadsheet
      [("A", [("h1", .str "Lab"), ("h2", .str "Analyte"),
              ("sub_port_mapping", .str "samp_name")]),
       ("B", [("h1", .str "Lab2")])]
      ⟨["samp_name"], [[("samp_name", .str "s1")]]⟩ true =
      .error .pdValueError := by decide

/-- C3 (amended): with key `B` given two header labels ending in `Lab2` so
the label table is well-formed, `create_spreadsheet` with the header flag
promotes the last declared labels `("Analyte", "Lab2")` to the column-name
row (the first written row), the rotation fronts the mapper-key row
`("A", "B")`, and the data region contributes only column `A` — no data
value sits under mapper key `B`. -/
theorem equal_label_mapper_spreadsheet :
    create_spreadsheet
      [("A", [("h1", .str "Lab"), ("h2", .str "Analyte"),
              ("sub_port_mapping", .str "samp_name")]),
       ("B", [("h1", .str "Lab0"), ("h2", .str "Lab2")])]
      ⟨["samp_name"], [[("samp_name", .str "s1")]]⟩ true =
      .ok ⟨["Analyte", "Lab2", "A"],
        [[("Analyte", .str "A"), ("Lab2", .str "B")],
         [("Analyte", .str "Lab"), ("Lab2", .str "Lab0")],
         [("A", .str "s1")]]⟩ := by decide

/-- C4 (counterexample): merging the annotation group
`water = [{samp_name: s1, y: 2}]` once onto the base yields the column list
`[samp_name, x, y, sample_isolated_from]`, but merging it twice yields
`[samp_name, x, y_x, sample_isolated_from, y_y]` — the `_x`/`_y` suffix
renaming enlarges the column set, so merging is not idempotent in column
union. -/
theorem double_merge_changes_column_set :
    (annotStep (dfOfRecords [[("samp_name", "s1"), ("x", "1")]]) "water"
        [[("samp_name", "s1"), ("y", "2")]]).map DF.cols =
      .ok ["samp_name", "x", "y", "sample_isolated_from"] ∧
    ((annotStep (dfOfRecords [[("samp_name", "s1"), ("x", "1")]]) "water"
        [[("samp_name", "s1"), ("y", "2")]]).bind
      (fun d => annotStep d "water" [[("samp_name", "s1"), ("y", "2")]])).map
        DF.cols =
      .ok ["samp_name", "x", "y_x", "sample_isolated_from", "y_y"] ∧
    ("y_y" : String) ∉ ["samp_name", "x", "y", "sample_isolated_from"] := by
  refine ⟨by decide, by decide, by decide⟩

/-- C4 (amended): re-merging the same annotation group preserves the column
set only when the group contributes no column other than the join key
`samp_name` (in particular when it is empty); then applying the loop body
twice yields the same column list as applying it once, the
`sample_isolated_from` stamp being last-write-wins.  In general the second
join renames colliding non-key columns with `_x`/`_y` and enlarges the
column set. -/
theorem annot_step_column_idempotent_on_keyonly_groups (df : DF) (k : String)
    (recs : List Rec)
    (hg : (dfOfRecords recs).cols = [] ∨ (dfOfRecords recs).cols = ["samp_name"]) :
    ((annotStep df k recs).bind (fun d => annotStep d k recs)).map DF.cols =
      (annotStep df k recs).map DF.cols := by
  rcases hg with hg | hg
  · have hempty : (dfOfRecords recs).isEmptyDF = true := by
      unfold DF.isEmptyDF
      rw [hg]
      simp
    unfold annotStep
    rw [if_pos hempty]
    simp only [Except.bind]
    rw [if_pos hempty]
    simp only [Except.map]
    rw [stampCol_cols_of_mem (stampCol df k) k (sifo_mem_stampCol df k)]
  · have hrecs_ne : recs ≠ [] := by
      intro h
      rw [h] at hg
      simp [dfOfRecords] at hg
    obtain ⟨r0, rest, rfl⟩ := List.exists_cons_of_ne_nil hrecs_ne
    · have hnonempty : (dfOfRecords (r0 :: rest)).isEmptyDF = false := by
        unfold DF.isEmptyDF
        rw [hg]
        simp [dfOfRecords]
      have hcond : ¬((dfOfRecords (r0 :: rest)).isEmptyDF = true) := by
        simp [hnonempty]
      unfold annotStep
      rw [if_neg hcond]
      cases hm : mergeLeft df (dfOfRecords (r0 :: rest)) "samp_name" with
      | error e => rfl
      | ok m =>
        have hkey := (mergeLeft_ok_key df _ _ m hm).1
        have hs := mergeLeft_samp_only df (dfOfRecords (r0 :: rest)) hg hkey
        rw [hm] at hs
        injection hs with hs
        have hmcols : m.cols = df.cols := by rw [hs]
        simp only [Except.map, Except.bind]
        rw [if_neg hcond]
        have hkey2 : "samp_name" ∈ (stampCol m k).cols := by
          unfold stampCol
          exact mem_setColVals_cols m _ _ _ (by rw [hmcols]; exact hkey)
        rw [mergeLeft_samp_only (stampCol m k) (dfOfRecords (r0 :: rest)) hg hkey2]
        simp only [Except.map]
        rw [stampCol_cols_of_mem ⟨(stampCol m k).cols, mergeRows (stampCol m k)
          (dfOfRecords (r0 :: rest)) "samp_name"⟩ k (sifo_mem_stampCol m k)]

/-- Witness for the amended C4: a one-record group carrying only
`samp_name`. -/
theorem annot_step_column_idempotent_witness :
    ((annotStep (dfOfRecords [[("samp_name", "s1"), ("x", "1")]]) "water"
        [[("samp_name", "s1")]]).bind
      (fun d => annotStep d "water" [[("samp_name", "s1")]])).map DF.cols =
      (annotStep (dfOfRecords [[("samp_name", "s1"), ("x", "1")]]) "water"
        [[("samp_name", "s1")]]).map DF.cols :=
  annot_step_column_idempotent_on_keyonly_groups _ "water" _ (Or.inr (by decide))

/-- C9: `retrieve_metadata_records` accepts the unique-field argument but
never reads it, so any two unique-field values produce identical results on
the same submission record and facility selector. -/
theorem unique_field_does_not_influence_result (sd : SampleData)
    (f uf1 uf2 : String) :
    retrieve_metadata_records sd f uf1 = retrieve_metadata_records sd f uf2 := rfl

/-! ### The lat_lon and depth derivations -/

theorem latLonStep_ok_rows (df : DF) (h : "lat_lon" ∈ df.cols)
    (hw : expandWidth " " (colCells df "lat_lon") = 2) :
    latLonStep df = .ok (setColVals
      (setColVals df "latitude" ((colCells df "lat_lon").map (partCell " " 0)))
      "longitude" ((colCells df "lat_lon").map (partCell " " 1))) ∧
    (setColVals
      (setColVals df "latitude" ((colCells df "lat_lon").map (partCell " " 0)))
      "longitude" ((colCells df "lat_lon").map (partCell " " 1))).rows =
      df.rows.map (fun r =>
        setCell (setCell r "latitude" (partCell " " 0 (getCell r "lat_lon")))
          "longitude" (partCell " " 1 (getCell r "lat_lon"))) := by
  constructor
  · unfold latLonStep
    rw [if_pos h, if_pos hw]
  · rw [colCells_map, colCells_map]
    exact setColVals_rows_map2 _ df.rows
      (fun r => setCell r "latitude" (partCell " " 0 (getCell r "lat_lon")))
      "longitude" (fun r => partCell " " 1 (getCell r "lat_lon"))
      (setColVals_rows_map df "latitude"
        (fun r => partCell " " 0 (getCell r "lat_lon")))

/-- C5 (amended): the lat_lon derivation splits on spaces with pandas
`expand` semantics — the whole table errors exactly when the maximum
space-part count across rows differs from two; otherwise every row receives
`latitude` and `longitude` as split parts 0 and 1 of its own value, a
one-part row in a passing table silently getting a null longitude rather
than an error. -/
theorem lat_lon_split_behavior (df : DF) (h : "lat_lon" ∈ df.cols) :
    (expandWidth " " (colCells df "lat_lon") ≠ 2 →
      latLonStep df = .error (.inputFormatError "lat_lon")) ∧
    (expandWidth " " (colCells df "lat_lon") = 2 →
      ∃ d, latLonStep df = .ok d ∧
        ColDerived df d "lat_lon" "latitude" (partCell " " 0) ∧
        ColDerived df d "lat_lon" "longitude" (partCell " " 1)) := by
  constructor
  · intro hw
    unfold latLonStep
    rw [if_pos h, if_neg hw]
  · intro hw
    obtain ⟨hok, hrows⟩ := latLonStep_ok_rows df h hw
    refine ⟨_, hok, ?_, ?_⟩
    · exact colDerived_of_map _ _ _ _ _ _ hrows (fun r => by
        rw [getCell_setCell_ne _ _ _ _ (by decide), getCell_setCell_self])
    · exact colDerived_of_map _ _ _ _ _ _ hrows
        (fun r => getCell_setCell_self _ _ _)

/-- Witness for C5: the spec's example value, in a one-row table of maximal
part count two. -/
theorem lat_lon_split_behavior_witness :
    partCell " " 0 (.str "12.3 -45.6") = .str "12.3" ∧
    partCell " " 1 (.str "12.3 -45.6") = .str "-45.6" ∧
    ((expandWidth " " (colCells ⟨["lat_lon"], [[("lat_lon", .str "12.3 -45.6")]]⟩
        "lat_lon") ≠ 2 →
      latLonStep ⟨["lat_lon"], [[("lat_lon", .str "12.3 -45.6")]]⟩ =
        .error (.inputFormatError "lat_lon")) ∧
     (expandWidth " " (colCells ⟨["lat_lon"], [[("lat_lon", .str "12.3 -45.6")]]⟩
        "lat_lon") = 2 →
      ∃ d, latLonStep ⟨["lat_lon"], [[("lat_lon", .str "12.3 -45.6")]]⟩ = .ok d ∧
        ColDerived ⟨["lat_lon"], [[("lat_lon", .str "12.3 -45.6")]]⟩ d
          "lat_lon" "latitude" (partCell " " 0) ∧
        ColDerived ⟨["lat_lon"], [[("lat_lon", .str "12.3 -45.6")]]⟩ d
          "lat_lon" "longitude" (partCell " " 1))) :=
  ⟨by decide, by decide,
    lat_lon_split_behavior ⟨["lat_lon"], [[("lat_lon", .str "12.3 -45.6")]]⟩
      (by decide)⟩

/-- C5 (counterexample): a merged table whose second row's lat_lon value
`"3"` has fewer than two space-separated parts does not make the derivation
fail — the expanded frame still has two columns because of the first row,
and the short row's longitude is silently null. -/
theorem one_part_lat_lon_value_no_error :
    (pySplit "3" " ").length = 1 ∧
    latLonStep ⟨["lat_lon"], [[("lat_lon", .str "1 2")], [("lat_lon", .str "3")]]⟩ =
      .ok ⟨["lat_lon", "latitude", "longitude"],
        [[("lat_lon", .str "1 2"), ("latitude", .str "1"), ("longitude", .str "2")],
         [("lat_lon", .str "3"), ("latitude", .str "3"),
          ("longitude", Cell.null)]]⟩ := by
  refine ⟨by decide, by decide⟩

theorem depthNormFrame_rows (df : DF) :
    (depthNormFrame df).rows =
      df.rows.map (fun r => setCell r "depth" (normCell (getCell r "depth"))) := by
  unfold depthNormFrame
  rw [colCells_map]
  exact setColVals_rows_map df "depth" (fun r => normCell (getCell r "depth"))

theorem depthNormFrame_length (df : DF) :
    (depthNormFrame df).rows.length = df.rows.length := by
  rw [depthNormFrame_rows, List.length_map]

theorem depthCells_eq (df : DF) :
    depthCells df = df.rows.map (fun r => normCell (getCell r "depth")) := by
  unfold depthCells depthNormFrame
  rw [colCells_map]
  exact colCells_setColVals_self df "depth" (fun r => normCell (getCell r "depth"))

theorem depth_parts_map (df : DF) (j : Nat) :
    (depthCells df).map (partCell " - " j) =
      df.rows.map (fun r => partCell " - " j (normCell (getCell r "depth"))) := by
  rw [depthCells_eq, List.map_map]
  rfl

theorem depth_chain_rows (df : DF) (j : Nat) :
    (setColVals
      (setColVals (depthNormFrame df) "minimum_depth"
        ((depthCells df).map (partCell " - " 0)))
      "maximum_depth" ((depthCells df).map (partCell " - " j))).rows =
      df.rows.map (fun r =>
        setCell (setCell (setCell r "depth" (normCell (getCell r "depth")))
          "minimum_depth" (partCell " - " 0 (normCell (getCell r "depth"))))
          "maximum_depth" (partCell " - " j (normCell (getCell r "depth")))) := by
  rw [depth_parts_map df 0, depth_parts_map df j]
  exact setColVals_rows_map2 _ df.rows
    (fun r => setCell (setCell r "depth" (normCell (getCell r "depth")))
      "minimum_depth" (partCell " - " 0 (normCell (getCell r "depth"))))
    "maximum_depth"
    (fun r => partCell " - " j (normCell (getCell r "depth")))
    (setColVals_rows_map2 _ df.rows
      (fun r => setCell r "depth" (normCell (getCell r "depth")))
      "minimum_depth"
      (fun r => partCell " - " 0 (normCell (getCell r "depth")))
      (depthNormFrame_rows df))

/-- C6: the depth derivation inserts spaces around every hyphen and splits
on `" - "`; the dispatch is on the table's row count — a one-row table
broadcasts split part 0 of the (normalized) value to both `minimum_depth`
and `maximum_depth` regardless of how many parts the split produced, while
any other row count assigns parts 0 and 1 positionally. -/
theorem depth_split_behavior (df : DF) (h : "depth" ∈ df.cols) :
    (df.rows.length = 1 →
      ∃ d, depthStep df = .ok d ∧
        ColDerived df d "depth" "minimum_depth"
          (fun c => partCell " - " 0 (normCell c)) ∧
        ColDerived df d "depth" "maximum_depth"
          (fun c => partCell " - " 0 (normCell c))) ∧
    (df.rows.length ≠ 1 → expandWidth " - " (depthCells df) = 2 →
      ∃ d, depthStep df = .ok d ∧
        ColDerived df d "depth" "minimum_depth"
          (fun c => partCell " - " 0 (normCell c)) ∧
        ColDerived df d "depth" "maximum_depth"
          (fun c => partCell " - " 1 (normCell c))) := by
  constructor
  · intro hlen
    have hok : depthStep df = .ok (setColVals
        (setColVals (depthNormFrame df) "minimum_depth"
          ((depthCells df).map (partCell " - " 0)))
        "maximum_depth" ((depthCells df).map (partCell " - " 0))) := by
      unfold depthStep
      rw [if_pos h, if_pos (by rw [depthNormFrame_length]; exact hlen)]
    exact ⟨_, hok,
      colDerived_of_map _ _ _ _ _ _ (depth_chain_rows df 0) (fun r => by
        rw [getCell_setCell_ne _ _ _ _ (by decide), getCell_setCell_self]),
      colDerived_of_map _ _ _ _ _ _ (depth_chain_rows df 0)
        (fun r => getCell_setCell_self _ _ _)⟩
  · intro hlen hw
    have hok : depthStep df = .ok (setColVals
        (setColVals (depthNormFrame df) "minimum_depth"
          ((depthCells df).map (partCell " - " 0)))
        "maximum_depth" ((depthCells df).map (partCell " - " 1))) := by
      unfold depthStep
      rw [if_pos h, if_neg (by rw [depthNormFrame_length]; exact hlen), if_pos hw]
    exact ⟨_, hok,
      colDerived_of_map _ _ _ _ _ _ (depth_chain_rows df 1) (fun r => by
        rw [getCell_setCell_ne _ _ _ _ (by decide), getCell_setCell_self]),
      colDerived_of_map _ _ _ _ _ _ (depth_chain_rows df 1)
        (fun r => getCell_setCell_self _ _ _)⟩

/-- Witness for C6: the spec's `"0-10"` value in a two-row table (parts
assigned positionally) and in a one-row table (part 0 broadcast to both
bounds even though the split has two parts). -/
theorem depth_split_behavior_witness :
    normCell (.str "0-10") = .str "0 - 10" ∧
    partCell " - " 0 (normCell (.str "0-10")) = .str "0" ∧
    partCell " - " 1 (normCell (.str "0-10")) = .str "10" ∧
    ((⟨["depth"], [[("depth", .str "0-10")], [("depth", .str "3-4")]]⟩ : DF).rows.length ≠ 1 →
      expandWidth " - "
        (depthCells ⟨["depth"], [[("depth", .str "0-10")], [("depth", .str "3-4")]]⟩) = 2 →
      ∃ d, depthStep ⟨["depth"], [[("depth", .str "0-10")], [("depth", .str "3-4")]]⟩ =
          .ok d ∧
        ColDerived ⟨["depth"], [[("depth", .str "0-10")], [("depth", .str "3-4")]]⟩ d
          "depth" "minimum_depth" (fun c => partCell " - " 0 (normCell c)) ∧
        ColDerived ⟨["depth"], [[("depth", .str "0-10")], [("depth", .str "3-4")]]⟩ d
          "depth" "maximum_depth" (fun c => partCell " - " 1 (normCell c))) ∧
    ((⟨["depth"], [[("depth", .str "0-10")]]⟩ : DF).rows.length = 1 →
      ∃ d, depthStep ⟨["depth"], [[("depth", .str "0-10")]]⟩ = .ok d ∧
        ColDerived ⟨["depth"], [[("depth", .str "0-10")]]⟩ d
          "depth" "minimum_depth" (fun c => partCell " - " 0 (normCell c)) ∧
        ColDerived ⟨["depth"], [[("depth", .str "0-10")]]⟩ d
          "depth" "maximum_depth" (fun c => partCell " - " 0 (normCell c))) :=
  ⟨by decide, by decide, by decide,
    (depth_split_behavior ⟨["depth"], [[("depth", .str "0-10")], [("depth", .str "3-4")]]⟩
      (by decide)).2,
    (depth_split_behavior ⟨["depth"], [[("depth", .str "0-10")]]⟩ (by decide)).1⟩

/-! ### The collection_date derivation -/

theorem exMapM_ok_length (f : Cell → Except EtlError Cell) :
    ∀ (l l' : List Cell), exMapM f l = .ok l' → l'.length = l.length := by
  intro l
  induction l with
  | nil =>
    intro l' h
    simp only [exMapM] at h
    cases h
    rfl
  | cons c cs ih =>
    intro l' h
    simp only [exMapM] at h
    cases hf : f c with
    | error e => rw [hf, except_bind_error] at h; simp at h
    | ok v =>
      rw [hf, except_bind_ok] at h
      cases hm : exMapM f cs with
      | error e => rw [hm, except_bind_error] at h; simp at h
      | ok vs =>
        rw [hm, except_bind_ok] at h
        cases h
        simp [ih vs hm]

theorem exMapM_ok_get? (f : Cell → Except EtlError Cell) :
    ∀ (l l' : List Cell), exMapM f l = .ok l' →
      ∀ (i : Nat) (a : Cell), l.get? i = some a →
        ∃ b, l'.get? i = some b ∧ f a = .ok b := by
  intro l
  induction l with
  | nil => intro l' h i a ha; simp at ha
  | cons c cs ih =>
    intro l' h i a ha
    simp only [exMapM] at h
    cases hf : f c with
    | error e => rw [hf, except_bind_error] at h; simp at h
    | ok v =>
      rw [hf, except_bind_ok] at h
      cases hm : exMapM f cs with
      | error e => rw [hm, except_bind_error] at h; simp at h
      | ok vs =>
        rw [hm, except_bind_ok] at h
        cases h
        cases i with
        | zero =>
          simp only [List.get?] at ha
          cases ha
          exact ⟨v, rfl, hf⟩
        | succ j =>
          simp only [List.get?] at ha
          obtain ⟨b, hb, hfb⟩ := ih vs hm j a ha
          exact ⟨b, by simpa using hb, hfb⟩

theorem setColVals_get?_row (df : DF) (c : String) (vs : List Cell)
    (hlen : vs.length = df.rows.length) (i : Nat) (r : Row)
    (hr : df.rows.get? i = some r) :
    ∃ v, vs.get? i = some v ∧
      (setColVals df c vs).rows.get? i = some (setCell r c v) := by
  have hi : i < df.rows.length := by
    by_contra hge
    rw [List.get?_eq_none.mpr (Nat.le_of_not_lt hge)] at hr
    cases hr
  obtain ⟨v, hv⟩ : ∃ v, vs.get? i = some v := by
    cases hvs : vs.get? i with
    | some v => exact ⟨v, rfl⟩
    | none =>
      rw [List.get?_eq_none, hlen] at hvs
      omega
  refine ⟨v, hv, ?_⟩
  show ((df.rows.zip vs).map (fun p => setCell p.1 c p.2)).get? i = _
  rw [List.get?_map, zip_get?_of df.rows vs i r v hr hv]
  rfl

/-- The composite row transformation of the three `.str`-accessor date
assignments. -/
def ymdRow (r : Row) : Row :=
  setCell (setCell (setCell r "collection_year"
    (partCell "-" 0 (getCell r "collection_date")))
    "collection_month" (partCell "-" 1 (getCell r "collection_date")))
    "collection_day" (partCell "-" 2 (getCell r "collection_date"))

theorem ymd1_rows (df : DF) :
    (ymd1 df).rows = df.rows.map (fun r =>
      setCell r "collection_year" (partCell "-" 0 (getCell r "collection_date"))) := by
  unfold ymd1
  rw [colCells_map]
  exact setColVals_rows_map df "collection_year"
    (fun r => partCell "-" 0 (getCell r "collection_date"))

theorem ymd1_date_col (df : DF) :
    colCells (ymd1 df) "collection_date" = colCells df "collection_date" := by
  unfold ymd1
  rw [colCells_map]
  exact colCells_setColVals_ne df _ _ _ (by decide)

theorem ymd2_rows (df : DF) :
    (ymd2 df).rows = df.rows.map (fun r =>
      setCell (setCell r "collection_year"
        (partCell "-" 0 (getCell r "collection_date")))
        "collection_month" (partCell "-" 1 (getCell r "collection_date"))) := by
  unfold ymd2
  rw [ymd1_date_col, colCells_map]
  exact setColVals_rows_map2 _ df.rows
    (fun r => setCell r "collection_year"
      (partCell "-" 0 (getCell r "collection_date")))
    "collection_month"
    (fun r => partCell "-" 1 (getCell r "collection_date"))
    (ymd1_rows df)

theorem ymd2_date_col (df : DF) :
    colCells (ymd2 df) "collection_date" = colCells df "collection_date" := by
  unfold ymd2
  rw [colCells_map]
  rw [colCells_setColVals_ne (ymd1 df) _ _ _ (by decide)]
  exact ymd1_date_col df

theorem ymd3_rows (df : DF) : (ymd3 df).rows = df.rows.map ymdRow := by
  unfold ymd3
  rw [ymd2_date_col, colCells_map]
  exact setColVals_rows_map2 _ df.rows
    (fun r => setCell (setCell r "collection_year"
      (partCell "-" 0 (getCell r "collection_date")))
      "collection_month" (partCell "-" 1 (getCell r "collection_date")))
    "collection_day"
    (fun r => partCell "-" 2 (getCell r "collection_date"))
    (ymd2_rows df)

theorem ymd3_month_col (df : DF) :
    colCells (ymd3 df) "collection_month" =
      df.rows.map (fun r => partCell "-" 1 (getCell r "collection_date")) := by
  unfold colCells
  rw [ymd3_rows, List.map_map]
  refine List.map_congr_left (fun r _ => ?_)
  show getCell (ymdRow r) "collection_month" = _
  unfold ymdRow
  rw [getCell_setCell_ne _ _ _ _ (by decide), getCell_setCell_self]

/-- C7: when a collection_date column is present and the step succeeds,
every row's `collection_year`, `collection_month` and `collection_day` are
parts 0, 1 and 2 of its own value split on `"-"`, and its
`collection_month_name` is exactly what `calendar.month_name[int(month)]`
(the 1-indexed English month table) returns on the row's month part. -/
theorem collection_date_split_behavior (df d : DF)
    (h : "collection_date" ∈ df.cols) (hok : collectionStep df = .ok d) :
    ColDerived df d "collection_date" "collection_year" (partCell "-" 0) ∧
    ColDerived df d "collection_date" "collection_month" (partCell "-" 1) ∧
    ColDerived df d "collection_date" "collection_day" (partCell "-" 2) ∧
    (∀ i r, df.rows.get? i = some r → ∃ r', d.rows.get? i = some r' ∧
      monthNameOf (partCell "-" 1 (getCell r "collection_date")) =
        .ok (getCell r' "collection_month_name")) := by
  unfold collectionStep at hok
  rw [if_pos h] at hok
  cases hex : exMapM monthNameOf (colCells (ymd3 df) "collection_month") with
  | error e => rw [hex] at hok; simp at hok
  | ok vs =>
    rw [hex] at hok
    injection hok with hok
    subst hok
    have hlen : vs.length = (ymd3 df).rows.length := by
      rw [exMapM_ok_length _ _ _ hex]
      unfold colCells
      rw [List.length_map]
    have key : ∀ i r, df.rows.get? i = some r → ∃ v, vs.get? i = some v ∧
        monthNameOf (partCell "-" 1 (getCell r "collection_date")) = .ok v ∧
        (setColVals (ymd3 df) "collection_month_name" vs).rows.get? i =
          some (setCell (ymdRow r) "collection_month_name" v) := by
      intro i r hr
      have h3 : (ymd3 df).rows.get? i = some (ymdRow r) := by
        rw [ymd3_rows, List.get?_map, hr]
        rfl
      have hmc : (colCells (ymd3 df) "collection_month").get? i =
          some (partCell "-" 1 (getCell r "collection_date")) := by
        rw [ymd3_month_col, List.get?_map, hr]
        rfl
      obtain ⟨b, hb, hfb⟩ := exMapM_ok_get? _ _ _ hex i _ hmc
      obtain ⟨v, hv, hrow⟩ := setColVals_get?_row (ymd3 df)
        "collection_month_name" vs hlen i _ h3
      have hbv : b = v := Option.some.inj (hb.symm.trans hv)
      exact ⟨v, hv, by rw [← hbv]; exact hfb, hrow⟩
    refine ⟨?_, ?_, ?_, ?_⟩
    · intro i r hr
      obtain ⟨v, _, _, hrow⟩ := key i r hr
      refine ⟨_, hrow, ?_⟩
      show getCell (setCell (ymdRow r) "collection_month_name" v)
        "collection_year" = _
      unfold ymdRow
      rw [getCell_setCell_ne _ _ _ _ (by decide),
        getCell_setCell_ne _ _ _ _ (by decide),
        getCell_setCell_ne _ _ _ _ (by decide), getCell_setCell_self]
    · intro i r hr
      obtain ⟨v, _, _, hrow⟩ := key i r hr
      refine ⟨_, hrow, ?_⟩
      show getCell (setCell (ymdRow r) "collection_month_name" v)
        "collection_month" = _
      unfold ymdRow
      rw [getCell_setCell_ne _ _ _ _ (by decide),
        getCell_setCell_ne _ _ _ _ (by decide), getCell_setCell_self]
    · intro i r hr
      obtain ⟨v, _, _, hrow⟩ := key i r hr
      refine ⟨_, hrow, ?_⟩
      show getCell (setCell (ymdRow r) "collection_month_name" v)
        "collection_day" = _
      unfold ymdRow
      rw [getCell_setCell_ne _ _ _ _ (by decide), getCell_setCell_self]
    · intro i r hr
      obtain ⟨v, _, hmv, hrow⟩ := key i r hr
      refine ⟨_, hrow, ?_⟩
      rw [getCell_setCell_self]
      exact hmv

/-- Witness for C7: `collection_date = "2020-05-17"` yields year `"2020"`,
month `"05"`, day `"17"` and month name `"May"`. -/
theorem collection_date_split_behavior_witness :
    collectionStep ⟨["collection_date"], [[("collection_date", .str "2020-05-17")]]⟩ =
      .ok ⟨["collection_date", "collection_year", "collection_month",
            "collection_day", "collection_month_name"],
        [[("collection_date", .str "2020-05-17"), ("collection_year", .str "2020"),
          ("collection_month", .str "05"), ("collection_day", .str "17"),
          ("collection_month_name", .str "May")]]⟩ ∧
    partCell "-" 0 (.str "2020-05-17") = .str "2020" ∧
    partCell "-" 1 (.str "2020-05-17") = .str "05" ∧
    partCell "-" 2 (.str "2020-05-17") = .str "17" ∧
    monthNameOf (.str "05") = .ok (.str "May") ∧
    (ColDerived ⟨["collection_date"], [[("collection_date", .str "2020-05-17")]]⟩
      ⟨["collection_date", "collection_year", "collection_month",
        "collection_day", "collection_month_name"],
        [[("collection_date", .str "2020-05-17"), ("collection_year", .str "2020"),
          ("collection_month", .str "05"), ("collection_day", .str "17"),
          ("collection_month_name", .str "May")]]⟩
      "collection_date" "collection_year" (partCell "-" 0)) :=
  ⟨by decide, by decide, by decide, by decide, by decide,
    (collection_date_split_behavior
      ⟨["collection_date"], [[("collection_date", .str "2020-05-17")]]⟩ _
      (by decide) (by decide)).1⟩

/-! ### The dnase normalization -/

theorem ynCell_other (c : Cell) (h1 : c ≠ .str "yes") (h2 : c ≠ .str "no") :
    ynCell c = c := by
  unfold ynCell
  rw [if_neg h1, if_neg h2]

theorem dnaseStep_mg_ok (df : DF) (h : "dna_dnase" ∈ df.cols) :
    dnaseStep "jgi_mg" df = .ok (setColVals df "dna_dnase"
      ((colCells df "dna_dnase").map ynCell)) ∧
    (setColVals df "dna_dnase" ((colCells df "dna_dnase").map ynCell)).rows =
      df.rows.map (fun r => setCell r "dna_dnase" (ynCell (getCell r "dna_dnase"))) := by
  constructor
  · unfold dnaseStep
    rw [if_pos rfl, if_pos h]
  · rw [colCells_map]
    exact setColVals_rows_map df "dna_dnase" _

theorem dnaseStep_mt_ok (df : DF) (h : "dnase_rna" ∈ df.cols) :
    dnaseStep "jgi_mt" df = .ok (setColVals df "dnase_rna"
      ((colCells df "dnase_rna").map ynCell)) ∧
    (setColVals df "dnase_rna" ((colCells df "dnase_rna").map ynCell)).rows =
      df.rows.map (fun r => setCell r "dnase_rna" (ynCell (getCell r "dnase_rna"))) := by
  constructor
  · unfold dnaseStep
    rw [if_neg (by decide), if_pos rfl, if_pos h]
  · rw [colCells_map]
    exact setColVals_rows_map df "dnase_rna" _

/-- C8: for the `jgi_mg` selector every row's `dna_dnase` value `"yes"` is
rewritten to `"Y"` and `"no"` to `"N"` while any other value is unchanged,
symmetrically for `jgi_mt` on `dnase_rna`; reading the column when the
facility demands it but the merged table lacks it is the fatal
missing-column error. -/
theorem dnase_yes_no_normalization (df : DF) :
    ("dna_dnase" ∈ df.cols → ∃ d, dnaseStep "jgi_mg" df = .ok d ∧
      ColDerived df d "dna_dnase" "dna_dnase" ynCell) ∧
    ("dna_dnase" ∉ df.cols →
      dnaseStep "jgi_mg" df = .error (.missingColumnError "dna_dnase")) ∧
    ("dnase_rna" ∈ df.cols → ∃ d, dnaseStep "jgi_mt" df = .ok d ∧
      ColDerived df d "dnase_rna" "dnase_rna" ynCell) ∧
    ("dnase_rna" ∉ df.cols →
      dnaseStep "jgi_mt" df = .error (.missingColumnError "dnase_rna")) ∧
    ynCell (.str "yes") = .str "Y" ∧ ynCell (.str "no") = .str "N" ∧
    (∀ c, c ≠ .str "yes" → c ≠ .str "no" → ynCell c = c) := by
  refine ⟨?_, ?_, ?_, ?_, by decide, by decide, ynCell_other⟩
  · intro h
    obtain ⟨hok, hrows⟩ := dnaseStep_mg_ok df h
    exact ⟨_, hok, colDerived_of_map _ _ _ _ _ _ hrows
      (fun r => getCell_setCell_self _ _ _)⟩
  · intro h
    unfold dnaseStep
    rw [if_pos rfl, if_neg h]
  · intro h
    obtain ⟨hok, hrows⟩ := dnaseStep_mt_ok df h
    exact ⟨_, hok, colDerived_of_map _ _ _ _ _ _ hrows
      (fun r => getCell_setCell_self _ _ _)⟩
  · intro h
    unfold dnaseStep
    rw [if_neg (by decide), if_pos rfl, if_neg h]

/-- Witness for C8: a `jgi_mg` table with `yes`, `no` and `maybe` rows, a
table lacking the demanded column, and the untouched odd value. -/
theorem dnase_yes_no_normalization_witness :
    (∃ d, dnaseStep "jgi_mg"
        ⟨["dna_dnase"], [[("dna_dnase", .str "yes")], [("dna_dnase", .str "no")],
          [("dna_dnase", .str "maybe")]]⟩ = .ok d ∧
      ColDerived
        ⟨["dna_dnase"], [[("dna_dnase", .str "yes")], [("dna_dnase", .str "no")],
          [("dna_dnase", .str "maybe")]]⟩ d "dna_dnase" "dna_dnase" ynCell) ∧
    dnaseStep "jgi_mg" ⟨["x"], [[("x", .str "1")]]⟩ =
      .error (.missingColumnError "dna_dnase") ∧
    ynCell (.str "maybe") = .str "maybe" :=
  ⟨(dnase_yes_no_normalization
      ⟨["dna_dnase"], [[("dna_dnase", .str "yes")], [("dna_dnase", .str "no")],
        [("dna_dnase", .str "maybe")]]⟩).1 (by decide),
   (dnase_yes_no_normalization ⟨["x"], [[("x", .str "1")]]⟩).2.1 (by decide),
   (dnase_yes_no_normalization ⟨["x"], [[("x", .str "1")]]⟩).2.2.2.2.2.2
     (.str "maybe") (by decide) (by decide)⟩

/-- C10: on every successful retrieval whose submission has at least one
annotation group, every row's `sample_isolated_from` equals the last
annotation-group key in enumeration order — the stamp is applied per
iterated key even when that group's record list is empty and no join
happens. -/
theorem sample_isolated_from_is_last_annotation_key (sd : SampleData)
    (f uf : String) (df : DF) (k : String)
    (hok : retrieve_metadata_records sd f uf = .ok df)
    (hlast : (annotationKeys sd).getLast? = some k) :
    ∀ r ∈ df.rows, getCell r "sample_isolated_from" = .str k := by
  obtain ⟨common, merged, d1, d2, d4, hfold, h1, h2, h4, h5⟩ :=
    retrieve_ok_parts sd f uf df hok
  have a0 : AllCell merged "sample_isolated_from" (.str k) :=
    foldl_annot_last (fun kk => (lookupStr sd kk).getD []) (annotationKeys sd)
      common merged k hlast hfold
  have a1 := allCell_latLonStep merged d1 "sample_isolated_from" _ h1
    (by decide) (by decide) a0
  have a2 := allCell_depthStep d1 d2 "sample_isolated_from" _ h2
    (by decide) (by decide) (by decide) a1
  have a3 := allCell_geoStep d2 "sample_isolated_from" _ (by decide) a2
  have a4 := allCell_collectionStep (geoStep d2) d4 "sample_isolated_from" _ h4
    (by decide) (by decide) (by decide) (by decide) a3
  exact allCell_dnaseStep f d4 df "sample_isolated_from" _ h5
    (by decide) (by decide) a4

/-- Witness for C10: the last annotation group `soil` has an empty record
list, yet every retrieved row is stamped `soil`. -/
theorem sample_isolated_from_last_key_witness :
    (annotationKeys [("emsl_data", [[("samp_name", "s1")]]),
        ("water", [[("samp_name", "s1"), ("w", "2")]]), ("soil", [])]).getLast? =
      some "soil" ∧
    (∀ r ∈ (⟨["samp_name", "w", "sample_isolated_from"],
        [[("samp_name", .str "s1"), ("w", .str "2"),
          ("sample_isolated_from", .str "soil")]]⟩ : DF).rows,
      getCell r "sample_isolated_from" = .str "soil") :=
  ⟨by decide,
    sample_isolated_from_is_last_annotation_key
      [("emsl_data", [[("samp_name", "s1")]]),
       ("water", [[("samp_name", "s1"), ("w", "2")]]), ("soil", [])]
      "emsl" "u" _ "soil" (by decide) (by decide)⟩

end Etl
